import Mathlib

/-!
Verification of the Study-Chatbot repository's core pipeline.

Text is modelled as `List Char` (a faithful model of a Python `str` as a
sequence of characters).  Each definition below is a shallow embedding of a
function from the repository's source (`src/pdf_processor.py`,
`src/rag_system.py`, `src/exam_generator.py`, `src/chatbot.py`); the external
collaborators (the vector index, the OpenAI model call, the PDF extraction
backends and the langchain text splitter) are passed in as explicit
parameters, exactly as the spec designates them external black boxes.
-/

namespace StudyChatbot

/-- Python `str` modelled as a list of characters. -/
abbrev PyStr := List Char

/-- A langchain `Document`: page content plus the metadata fields the core
reads.  `filename` models `metadata.get('filename', default)`: `none` when the
key is absent. -/
structure Document where
  page_content : PyStr
  filename : Option PyStr
deriving Repr, DecidableEq

/-! ## Context budgeting (`RAGSystem.get_relevant_context`,
`src/rag_system.py` lines 314-345) -/

/-- Token estimate used throughout `rag_system.py`:
`estimated_tokens = len(content) // 4`. -/
def estimated_tokens (content : PyStr) : Nat := content.length / 4

/-- The ellipsis marker appended to a truncated slice. -/
def ellipsis : PyStr := "...".toList

/-- The passage-selection loop of `RAGSystem.get_relevant_context`:
walk `docs` in retrieval order keeping a running `token_count`; append the
full passage while the estimate stays within `max_tokens`; on overflow append
one truncated, ellipsized slice when more than 100 characters of budget
remain, then stop.  Returns the selected `(doc, content-as-included)` pairs. -/
def selectContext (max_tokens : Nat) : List Document → Nat → List (Document × PyStr)
  | [], _ => []
  | doc :: docs, token_count =>
    let content := doc.page_content
    let est := estimated_tokens content
    if token_count + est > max_tokens then
      let remaining_chars := (max_tokens - token_count) * 4
      if remaining_chars > 100 then
        [(doc, content.take remaining_chars ++ ellipsis)]
      else []
    else
      (doc, content) :: selectContext max_tokens docs (token_count + est)

/-- Rendering of one selected passage in `get_relevant_context`:
`f"[From: {source}]\\n{content}"` where `source` is
`doc.metadata.get('filename', 'Unknown source')`.  (The source file uses the
two-character escape `\\n` literally.) -/
def renderContextPart (doc : Document) (content : PyStr) : PyStr :=
  "[From: ".toList ++ doc.filename.getD "Unknown source".toList ++ "]".toList
    ++ "\\n".toList ++ content

/-- `RAGSystem.get_relevant_context` given the retrieval result `docs`
(the value of `self.similarity_search(query, k=10)`):
budget the passages and join with `"\\n\\n"`. -/
def get_relevant_context (docs : List Document) (max_tokens : Nat) : PyStr :=
  List.intercalate "\\n\\n".toList
    ((selectContext max_tokens docs 0).map fun p => renderContextPart p.1 p.2)

/-- Sum of token estimates over a list of documents. -/
def sumEst (docs : List Document) : Nat :=
  (docs.map fun d => estimated_tokens d.page_content).sum

theorem sumEst_nil : sumEst [] = 0 := rfl

theorem sumEst_cons (d : Document) (ds : List Document) :
    sumEst (d :: ds) = estimated_tokens d.page_content + sumEst ds := by
  simp [sumEst]

/-- Budget safety of the selection loop: starting from any running count
`tc ≤ max_tokens`, the total token estimate of everything selected (the
final truncated slice included) stays within the budget. -/
theorem selectContext_sum_le (max_tokens : Nat) (docs : List Document) (tc : Nat)
    (htc : tc ≤ max_tokens) :
    tc + ((selectContext max_tokens docs tc).map fun p => estimated_tokens p.2).sum
      ≤ max_tokens := by
  induction docs generalizing tc with
  | nil => simpa [selectContext] using htc
  | cons d ds ih =>
    by_cases hov : tc + estimated_tokens d.page_content > max_tokens
    · by_cases hrem : (max_tokens - tc) * 4 > 100
      · have hlen : (d.page_content.take ((max_tokens - tc) * 4)).length
            = (max_tokens - tc) * 4 := by
          apply List.length_take_of_le
          have h1 : max_tokens - tc + 1 ≤ estimated_tokens d.page_content := by
            simp only [estimated_tokens] at hov ⊢
            omega
          have h4 : (max_tokens - tc + 1) * 4 ≤ (d.page_content.length / 4) * 4 :=
            Nat.mul_le_mul_right 4 (by simpa [estimated_tokens] using h1)
          have h5 : (d.page_content.length / 4) * 4 ≤ d.page_content.length :=
            Nat.div_mul_le_self _ _
          omega
        simp only [selectContext, if_pos hov, if_pos hrem]
        simp only [List.map_cons, List.map_nil, List.sum_cons, List.sum_nil]
        have : estimated_tokens (d.page_content.take ((max_tokens - tc) * 4) ++ ellipsis)
            = max_tokens - tc := by
          simp only [estimated_tokens, List.length_append, hlen]
          show ((max_tokens - tc) * 4 + 3) / 4 = max_tokens - tc
          omega
        rw [this]
        omega
      · simp only [selectContext, if_pos hov, if_neg hrem]
        simpa using htc
    · simp only [selectContext, if_neg hov]
      simp only [List.map_cons, List.sum_cons]
      have : tc + estimated_tokens d.page_content ≤ max_tokens := by omega
      have := ih (tc + estimated_tokens d.page_content) this
      omega

/-- Shape of the selection loop's output: a prefix of the documents taken in
full, optionally followed by exactly one truncated-and-ellipsized slice of
the next document, included only when more than 100 characters of budget
remain; nothing further is selected. -/
theorem selectContext_shape (max_tokens : Nat) (docs : List Document) (tc : Nat) :
    ∃ n,
      selectContext max_tokens docs tc
          = (docs.take n).map (fun d => (d, d.page_content))
        ∨ ∃ d rest,
            docs.drop n = d :: rest ∧
            (max_tokens - (tc + sumEst (docs.take n))) * 4 > 100 ∧
            selectContext max_tokens docs tc
              = (docs.take n).map (fun d => (d, d.page_content))
                ++ [(d, d.page_content.take
                      ((max_tokens - (tc + sumEst (docs.take n))) * 4) ++ ellipsis)] := by
  induction docs generalizing tc with
  | nil => exact ⟨0, Or.inl rfl⟩
  | cons d ds ih =>
    by_cases hov : tc + estimated_tokens d.page_content > max_tokens
    · by_cases hrem : (max_tokens - tc) * 4 > 100
      · refine ⟨0, Or.inr ⟨d, ds, rfl, ?_, ?_⟩⟩
        · simpa [sumEst] using hrem
        · simp [selectContext, if_pos hov, if_pos hrem, sumEst]
      · refine ⟨0, Or.inl ?_⟩
        simp [selectContext, if_pos hov, if_neg hrem]
    · obtain ⟨n, hn⟩ := ih (tc + estimated_tokens d.page_content)
      refine ⟨n + 1, ?_⟩
      rcases hn with hfull | ⟨d', rest, hdrop, hbud, heq⟩
      · left
        simp [selectContext, if_neg hov, hfull, List.take_succ_cons]
      · right
        refine ⟨d', rest, by simpa using hdrop, ?_, ?_⟩
        · simpa [sumEst_cons, Nat.add_assoc] using hbud
        · simp only [selectContext, if_neg hov, List.take_succ_cons, List.map_cons,
            List.cons_append, heq]
          congr 2
          simp [sumEst_cons]
          ring_nf

/-- C1: in `get_relevant_context(query, max_tokens)` the returned content's
estimated token count (`len // 4` per passage, summed over the included
passages) never exceeds the `max_tokens` budget: full passages are appended
in retrieval order while the running estimate stays under the budget, and
when the next passage would overflow, a single truncated slice ending in the
ellipsis marker is included only if more than 100 characters of budget
remain, after which no further passages are added. -/
theorem C1_context_budget_invariant (docs : List Document) (max_tokens : Nat) :
    (((selectContext max_tokens docs 0).map fun p => estimated_tokens p.2).sum
        ≤ max_tokens)
    ∧ ∃ n,
        selectContext max_tokens docs 0
            = (docs.take n).map (fun d => (d, d.page_content))
          ∨ ∃ d rest,
              docs.drop n = d :: rest ∧
              (max_tokens - sumEst (docs.take n)) * 4 > 100 ∧
              selectContext max_tokens docs 0
                = (docs.take n).map (fun d => (d, d.page_content))
                  ++ [(d, d.page_content.take
                        ((max_tokens - sumEst (docs.take n)) * 4) ++ ellipsis)] := by
  constructor
  · simpa using selectContext_sum_le max_tokens docs 0 (Nat.zero_le _)
  · simpa using selectContext_shape max_tokens docs 0

/-! ## Relevance filtering and fallback (`RAGSystem.similarity_search`,
`src/rag_system.py` lines 197-221)

The external vector store is modelled, per the spec's external-interface
contract, as the ranked candidate list it would return for the query:
`similarity_search_with_relevance_scores(query, n)` yields the first `n`
entries of that ranking and `vector_store.similarity_search(query, n)` the
first `n` documents. -/

/-- Model of `vector_store.similarity_search_with_relevance_scores(query, n)`. -/
def search_with_relevance_scores (ranked : List (Document × ℚ)) (n : Nat) :
    List (Document × ℚ) := ranked.take n

/-- Model of `vector_store.similarity_search(query, n)`. -/
def vector_search (ranked : List (Document × ℚ)) (n : Nat) : List Document :=
  (ranked.take n).map Prod.fst

/-- The filtering loop of `RAGSystem.similarity_search`: walk the scored
candidates, append a document when its score exceeds the `0.1` relevance
threshold, and `break` as soon as the filtered list holds `k` entries. -/
def filterLoop (k : Nat) : List (Document × ℚ) → List Document → List Document
  | [], acc => acc
  | (doc, score) :: rest, acc =>
    let acc' := if score > 1/10 then acc ++ [doc] else acc
    if acc'.length ≥ k then acc' else filterLoop k rest acc'

/-- `RAGSystem.similarity_search(query, k)`: fetch `k*2` scored candidates,
keep those above the `0.1` threshold capped at `k`; if fewer than `k//2`
survive, discard them and re-issue a plain search for `k` candidates. -/
def similarity_search (ranked : List (Document × ℚ)) (k : Nat) : List Document :=
  let filtered_results := filterLoop k (search_with_relevance_scores ranked (k*2)) []
  if filtered_results.length < k / 2 then vector_search ranked k
  else filtered_results

theorem filterLoop_mem (k : Nat) (l : List (Document × ℚ)) (acc : List Document) :
    ∀ d ∈ filterLoop k l acc, d ∈ acc ∨ ∃ s, (d, s) ∈ l ∧ s > 1/10 := by
  induction l generalizing acc with
  | nil => intro d hd; exact Or.inl hd
  | cons p rest ih =>
    obtain ⟨doc, score⟩ := p
    intro d hd
    simp only [filterLoop] at hd
    by_cases hs : score > 1/10
    · simp only [if_pos hs] at hd
      by_cases hlen : (acc ++ [doc]).length ≥ k
      · simp only [if_pos hlen] at hd
        rcases List.mem_append.mp hd with h | h
        · exact Or.inl h
        · exact Or.inr ⟨score, by simp [List.mem_singleton.mp h], hs⟩
      · simp only [if_neg hlen] at hd
        rcases ih (acc ++ [doc]) d hd with h | ⟨s, hmem, hst⟩
        · rcases List.mem_append.mp h with h' | h'
          · exact Or.inl h'
          · exact Or.inr ⟨score, by simp [List.mem_singleton.mp h'], hs⟩
        · exact Or.inr ⟨s, List.mem_cons_of_mem _ hmem, hst⟩
    · simp only [if_neg hs] at hd
      by_cases hlen : acc.length ≥ k
      · simp only [if_pos hlen] at hd
        exact Or.inl hd
      · simp only [if_neg hlen] at hd
        rcases ih acc d hd with h | ⟨s, hmem, hst⟩
        · exact Or.inl h
        · exact Or.inr ⟨s, List.mem_cons_of_mem _ hmem, hst⟩

theorem filterLoop_length_le (k : Nat) (l : List (Document × ℚ))
    (acc : List Document) (hacc : acc.length < k) :
    (filterLoop k l acc).length ≤ k := by
  induction l generalizing acc with
  | nil => simpa [filterLoop] using Nat.le_of_lt hacc
  | cons p rest ih =>
    obtain ⟨doc, score⟩ := p
    simp only [filterLoop]
    by_cases hs : score > 1/10
    · simp only [if_pos hs]
      by_cases hlen : (acc ++ [doc]).length ≥ k
      · simp only [if_pos hlen]
        simp only [List.length_append, List.length_singleton]
        omega
      · simp only [if_neg hlen]
        exact ih (acc ++ [doc]) (by omega)
    · simp only [if_neg hs]
      by_cases hlen : acc.length ≥ k
      · omega
      · simp only [if_neg hlen]
        exact ih acc (by omega)

/-- C2: `similarity_search(query, k)` fetches `2k` scored candidates, keeps
only passages whose relevance score exceeds `0.1`, capped at `k` results;
and whenever fewer than `k//2` candidates survive the threshold, the
filtered set is discarded and an unfiltered search for `k` candidates is
issued instead, so the result holds exactly `k` passages — or all available
when the index holds fewer than `k`. -/
theorem C2_relevance_fallback (ranked : List (Document × ℚ)) (k : Nat) :
    (∀ d ∈ filterLoop k (search_with_relevance_scores ranked (k*2)) [],
        ∃ s, (d, s) ∈ ranked ∧ s > 1/10)
    ∧ (filterLoop k (search_with_relevance_scores ranked (k*2)) []).length ≤ k
    ∧ ((filterLoop k (search_with_relevance_scores ranked (k*2)) []).length < k / 2 →
        similarity_search ranked k = (ranked.take k).map Prod.fst
        ∧ (similarity_search ranked k).length = min k ranked.length) := by
  refine ⟨?_, ?_, ?_⟩
  · intro d hd
    rcases filterLoop_mem k _ [] d hd with h | ⟨s, hmem, hst⟩
    · simp at h
    · exact ⟨s, List.mem_of_mem_take (by simpa [search_with_relevance_scores] using hmem), hst⟩
  · rcases Nat.eq_zero_or_pos k with hk | hk
    · subst hk
      simp [search_with_relevance_scores, filterLoop]
    · exact filterLoop_length_le k _ [] (by simpa using hk)
  · intro hfb
    have heq : similarity_search ranked k = vector_search ranked k := by
      simp only [similarity_search, if_pos hfb]
    refine ⟨heq, ?_⟩
    rw [heq]
    simp [vector_search, List.length_take, Nat.min_comm]

/-- Concrete documents used to witness the relevance fallback: five
candidates, every score at the floor `0.05 < 0.1`, `k = 5`. -/
def lowScoreRanked : List (Document × ℚ) :=
  [(⟨"alpha chunk one is here".toList, none⟩, 1/20),
   (⟨"beta chunk two is here.".toList, none⟩, 1/20),
   (⟨"gamma chunk three here.".toList, none⟩, 1/20),
   (⟨"delta chunk four here..".toList, none⟩, 1/20),
   (⟨"epsilon chunk five here".toList, none⟩, 1/20)]

theorem lowScoreRanked_filtered_empty :
    filterLoop 5 (search_with_relevance_scores lowScoreRanked (5*2)) [] = [] := by
  norm_num [filterLoop, search_with_relevance_scores, lowScoreRanked]

theorem C2_relevance_fallback_witness :
    (filterLoop 5 (search_with_relevance_scores lowScoreRanked (5*2)) []).length < 5 / 2
    ∧ similarity_search lowScoreRanked 5 = (lowScoreRanked.take 5).map Prod.fst
    ∧ (similarity_search lowScoreRanked 5).length = min 5 lowScoreRanked.length :=
  ⟨by rw [lowScoreRanked_filtered_empty]; norm_num,
   ((C2_relevance_fallback lowScoreRanked 5).2.2
     (by rw [lowScoreRanked_filtered_empty]; norm_num)).1,
   ((C2_relevance_fallback lowScoreRanked 5).2.2
     (by rw [lowScoreRanked_filtered_empty]; norm_num)).2⟩

/-! ## Chunk quality gate (`PDFProcessor.chunk_text`,
`src/pdf_processor.py` lines 180-222)

`chunk_text` cleans the text, hands it to the external langchain
`RecursiveCharacterTextSplitter`, and then runs the quality filter below
over the splitter's output.  The splitter is an excluded collaborator, so
the embedding takes its output (`chunks`, a list of window texts) as the
parameter and models the filter faithfully. -/

/-- Python `str.strip()`: remove leading and trailing whitespace. -/
def pyStrip (s : PyStr) : PyStr :=
  ((s.dropWhile Char.isWhitespace).reverse.dropWhile Char.isWhitespace).reverse

/-- Number of alphabetic characters, `sum(1 for c in s if c.isalpha())`. -/
def alphaCount (s : PyStr) : Nat := (s.filter Char.isAlpha).length

/-- Drop leading whitespace (`\s*` in the regex). -/
def dropSpaces (s : PyStr) : PyStr := s.dropWhile Char.isWhitespace

/-- Case-insensitive literal match consuming `pat` from the head of the
input, returning the remainder (for the `re.IGNORECASE` flag). -/
def matchCaseFold : PyStr → PyStr → Option PyStr
  | [], rest => some rest
  | _ :: _, [] => none
  | p :: ps, c :: cs => if p.toLower == c.toLower then matchCaseFold ps cs else none

/-- The page-number-artifact test of `chunk_text`:
`re.match(r'^\s*\[?Page\s*\d+\]?\s*$', content, re.IGNORECASE)`. -/
def isPageArtifact (s : PyStr) : Bool :=
  let s1 := dropSpaces s
  let s2 := match s1 with
    | '[' :: t => t
    | _ => s1
  match matchCaseFold "Page".toList s2 with
  | none => false
  | some s3 =>
    let s4 := dropSpaces s3
    let digits := s4.takeWhile Char.isDigit
    let s5 := s4.dropWhile Char.isDigit
    if digits.isEmpty then false
    else
      let s6 := match s5 with
        | ']' :: t => t
        | _ => s5
      (dropSpaces s6).isEmpty

/-- A surviving chunk: the original window text plus the metadata fields
`chunk_text` attaches (`chunk_id`, `chunk_count`, `source_type`,
`content_length`). -/
structure Chunk where
  page_content : PyStr
  chunk_id : Nat
  chunk_count : Nat
  source_type : PyStr
  content_length : Nat
deriving Repr, DecidableEq

/-- The quality-filter loop of `chunk_text`: strip each window, drop it when
shorter than 50 characters, when under 30% alphabetic
(`alpha_chars < len(content) * 0.3`, i.e. `10*alpha < 3*len`), or when it is
solely a page-number artifact; tag survivors with consecutive ids
(`chunk_id = len(quality_chunks)`) and the pre-filter total. -/
def qualityGo (total : Nat) : List PyStr → Nat → List Chunk
  | [], _ => []
  | chunk :: rest, count =>
    let content := pyStrip chunk
    if content.length < 50 then qualityGo total rest count
    else if 10 * alphaCount content < 3 * content.length then qualityGo total rest count
    else if isPageArtifact content then qualityGo total rest count
    else
      { page_content := chunk, chunk_id := count, chunk_count := total,
        source_type := "pdf".toList, content_length := content.length }
        :: qualityGo total rest (count + 1)

/-- `PDFProcessor.chunk_text` given the splitter output `chunks`. -/
def chunk_text (chunks : List PyStr) : List Chunk :=
  qualityGo chunks.length chunks 0

theorem qualityGo_length_le (total : Nat) (l : List PyStr) (count : Nat) :
    (qualityGo total l count).length ≤ l.length := by
  induction l generalizing count with
  | nil => simp [qualityGo]
  | cons chunk rest ih =>
    simp only [qualityGo]
    split_ifs
    · exact Nat.le_succ_of_le (ih count)
    · exact Nat.le_succ_of_le (ih count)
    · exact Nat.le_succ_of_le (ih count)
    · simpa using Nat.succ_le_succ (ih (count + 1))

theorem qualityGo_mem (total : Nat) (l : List PyStr) (count : Nat) :
    ∀ c ∈ qualityGo total l count,
      c.chunk_count = total
      ∧ c.content_length = (pyStrip c.page_content).length
      ∧ c.chunk_id < count + l.length
      ∧ 50 ≤ (pyStrip c.page_content).length
      ∧ 3 * (pyStrip c.page_content).length ≤ 10 * alphaCount (pyStrip c.page_content)
      ∧ isPageArtifact (pyStrip c.page_content) = false := by
  induction l generalizing count with
  | nil => intro c hc; simp [qualityGo] at hc
  | cons chunk rest ih =>
    intro c hc
    simp only [qualityGo] at hc
    split_ifs at hc with h1 h2 h3
    · obtain ⟨ha, hb, hd, he⟩ := ih count c hc
      exact ⟨ha, hb, by simp only [List.length_cons]; omega, he⟩
    · obtain ⟨ha, hb, hd, he⟩ := ih count c hc
      exact ⟨ha, hb, by simp only [List.length_cons]; omega, he⟩
    · obtain ⟨ha, hb, hd, he⟩ := ih count c hc
      exact ⟨ha, hb, by simp only [List.length_cons]; omega, he⟩
    · rcases List.mem_cons.mp hc with hcur | htail
      · subst hcur
        refine ⟨rfl, rfl, ?_, ?_, ?_, ?_⟩ <;> dsimp only
        · simp only [List.length_cons]; omega
        · omega
        · omega
        · simpa using h3
      · obtain ⟨ha, hb, hd, he⟩ := ih (count + 1) c htail
        exact ⟨ha, hb, by simp only [List.length_cons]; omega, he⟩

theorem qualityGo_ids (total : Nat) (l : List PyStr) (count : Nat) :
    (qualityGo total l count).map Chunk.chunk_id
      = List.range' count (qualityGo total l count).length := by
  induction l generalizing count with
  | nil => simp [qualityGo]
  | cons chunk rest ih =>
    simp only [qualityGo]
    split_ifs
    · exact ih count
    · exact ih count
    · exact ih count
    · simp [List.range', ih (count + 1)]

/-- C3: every passage returned by `chunk_text` has (stripped) content of
length at least 50 characters and an alphabetic-character ratio of at least
0.3, and is not solely a page-number artifact; any window failing either
bound, or matching the page-number pattern, is discarded. -/
theorem C3_chunk_quality (chunks : List PyStr) :
    ∀ c ∈ chunk_text chunks,
      50 ≤ (pyStrip c.page_content).length
      ∧ 3 * (pyStrip c.page_content).length ≤ 10 * alphaCount (pyStrip c.page_content)
      ∧ isPageArtifact (pyStrip c.page_content) = false := by
  intro c hc
  exact (qualityGo_mem chunks.length chunks 0 c hc).2.2.2

/-- Splitter output used to witness the quality gate: one clean sentence,
one page-number line, one too-short line, one low-alphabetic line. -/
def exampleWindows : List PyStr :=
  ["Ultrasonic testing detects subsurface flaws in welded steel components.".toList,
   "[Page 12]".toList,
   "12".toList,
   "12 / 34 / 56 -- 78 ++ 90 == 11 22 33 44 55 66 77 88 99 00 :: ;;".toList]

/-- The single chunk surviving the quality gate on `exampleWindows`. -/
def exampleChunk : Chunk :=
  { page_content :=
      "Ultrasonic testing detects subsurface flaws in welded steel components.".toList,
    chunk_id := 0, chunk_count := exampleWindows.length,
    source_type := "pdf".toList,
    content_length :=
      (pyStrip "Ultrasonic testing detects subsurface flaws in welded steel components.".toList).length }

theorem C3_chunk_quality_witness :
    exampleChunk ∈ chunk_text exampleWindows
    ∧ (50 ≤ (pyStrip exampleChunk.page_content).length
       ∧ 3 * (pyStrip exampleChunk.page_content).length
           ≤ 10 * alphaCount (pyStrip exampleChunk.page_content)
       ∧ isPageArtifact (pyStrip exampleChunk.page_content) = false) :=
  ⟨by decide, C3_chunk_quality exampleWindows exampleChunk (by decide)⟩

/-- C9: the chunks surviving `chunk_text` carry consecutive `chunk_id`s
`0, 1, …, n-1` in output order; each `chunk_id` is strictly below its
`chunk_count`, which records the pre-filter total and hence bounds (and may
exceed) the number of returned chunks; and `content_length` equals the
length of the stripped content. -/
theorem C9_chunk_metadata (chunks : List PyStr) :
    (chunk_text chunks).map Chunk.chunk_id = List.range (chunk_text chunks).length
    ∧ (chunk_text chunks).length ≤ chunks.length
    ∧ ∀ c ∈ chunk_text chunks,
        c.chunk_count = chunks.length
        ∧ c.chunk_id < c.chunk_count
        ∧ c.content_length = (pyStrip c.page_content).length := by
  refine ⟨?_, qualityGo_length_le _ _ _, ?_⟩
  · rw [List.range_eq_range']
    simpa using qualityGo_ids chunks.length chunks 0
  · intro c hc
    obtain ⟨hcount, hclen, hlt, -⟩ := qualityGo_mem chunks.length chunks 0 c hc
    exact ⟨hcount, by omega, hclen⟩

/-- Splitter output used to witness the metadata invariants: two surviving
windows around one discarded page artifact. -/
def exampleWindows2 : List PyStr :=
  ["Magnetic particle inspection reveals surface cracks in ferromagnetic parts.".toList,
   " Page 7 ".toList,
   "Radiographic testing uses penetrating radiation to image internal defects.".toList]

/-- The second chunk surviving the quality gate on `exampleWindows2`
(the page-artifact line between the two sentences is dropped, so this chunk
gets `chunk_id = 1` while `chunk_count` stays `3`). -/
def exampleChunk2 : Chunk :=
  { page_content :=
      "Radiographic testing uses penetrating radiation to image internal defects.".toList,
    chunk_id := 1, chunk_count := exampleWindows2.length,
    source_type := "pdf".toList,
    content_length :=
      (pyStrip "Radiographic testing uses penetrating radiation to image internal defects.".toList).length }

theorem C9_chunk_metadata_witness :
    (exampleChunk2 ∈ chunk_text exampleWindows2
        ∧ (chunk_text exampleWindows2).map Chunk.chunk_id
            = List.range (chunk_text exampleWindows2).length)
    ∧ (exampleChunk2.chunk_count = exampleWindows2.length
       ∧ exampleChunk2.chunk_id < exampleChunk2.chunk_count
       ∧ exampleChunk2.content_length = (pyStrip exampleChunk2.page_content).length) :=
  ⟨⟨by decide, (C9_chunk_metadata exampleWindows2).1⟩,
   (C9_chunk_metadata exampleWindows2).2.2 exampleChunk2 (by decide)⟩

/-! ## Exam synthesis (`ExamGenerator.generate_complete_exam`,
`src/exam_generator.py` lines 255-326)

The four per-section generators (`generate_multiple_choice`, …) each wrap
the model call in `try/except` and return `[]` on any failure (transport
error, malformed / unparsable JSON), so a section generator is modelled by
the question list it produced — `[]` meaning "failed or zero usable
questions".  The questions themselves follow the JSON output contracts the
prompts demand. -/

/-- A parsed multiple-choice question (`question`/`choices`/`correct_answer`/
`explanation`); `choices` is the letter-to-text mapping in insertion order. -/
structure MCQuestion where
  question : PyStr
  choices : List (PyStr × PyStr)
  correct_answer : PyStr
  explanation : PyStr
deriving Repr, DecidableEq

/-- A parsed true/false question (`statement`/`correct_answer`/`explanation`). -/
structure TFQuestion where
  statement : PyStr
  correct_answer : Bool
  explanation : PyStr
deriving Repr, DecidableEq

/-- A parsed short-answer question (`question`/`answer`/`key_points`). -/
structure SAQuestion where
  question : PyStr
  answer : PyStr
  key_points : PyStr
deriving Repr, DecidableEq

/-- A parsed essay question (`question`/`key_points`/`guidance`). -/
structure EssayQuestion where
  question : PyStr
  key_points : PyStr
  guidance : PyStr
deriving Repr, DecidableEq

/-- The questions of one exam section, tagged by section kind. -/
inductive SectionQuestions where
  | multiple_choice (qs : List MCQuestion)
  | true_false (qs : List TFQuestion)
  | short_answer (qs : List SAQuestion)
  | essay (qs : List EssayQuestion)
deriving Repr, DecidableEq

/-- Number of questions in a section (`len(section["questions"])`). -/
def SectionQuestions.count : SectionQuestions → Nat
  | .multiple_choice qs => qs.length
  | .true_false qs => qs.length
  | .short_answer qs => qs.length
  | .essay qs => qs.length

/-- One entry of the exam's `sections` mapping. -/
structure ExamSection where
  title : PyStr
  instructions : PyStr
  questions : SectionQuestions
deriving Repr, DecidableEq

/-- `exam_config`: requested per-kind counts (`.get(kind, 0)`) and the
difficulty string. -/
structure ExamConfig where
  multiple_choice : Nat
  true_false : Nat
  short_answer : Nat
  essay : Nat
  difficulty : PyStr
deriving Repr, DecidableEq

/-- Python `str.title()`: uppercase the first letter of every word,
lowercase the rest. -/
def pyTitleGo : List Char → Bool → List Char
  | [], _ => []
  | c :: cs, prevAlpha =>
    (if c.isAlpha then (if prevAlpha then c.toLower else c.toUpper) else c)
      :: pyTitleGo cs c.isAlpha

/-- Python `str.title()`. -/
def pyTitle (s : PyStr) : PyStr := pyTitleGo s false

/-- Python `str.upper()`. -/
def pyUpper (s : PyStr) : PyStr := s.map Char.toUpper

/-- The exam dictionary built by `generate_complete_exam`: title,
instructions, the `sections` mapping in insertion order, `total_questions`,
and the `error` key present only on the unrecoverable `except` path. -/
structure Exam where
  title : PyStr
  instructions : PyStr
  sections : List (PyStr × ExamSection)
  total_questions : Nat
  error : Option PyStr := none
deriving Repr, DecidableEq

/-- `ExamGenerator.generate_complete_exam(context, exam_config)` given the
values the four section generators returned (`[]` = that generator failed or
yielded zero usable questions).  A section is added to `sections` only when
its requested count is positive and its generator's list is non-empty
(`if mcq:`); `total_questions` is then summed over the sections present. -/
def generate_complete_exam (config : ExamConfig)
    (mcq : List MCQuestion) (tf : List TFQuestion)
    (sa : List SAQuestion) (essay : List EssayQuestion) : Exam :=
  let sections :=
    (if config.multiple_choice > 0 ∧ mcq ≠ [] then
      [("multiple_choice".toList,
        { title := "Multiple Choice Questions".toList,
          instructions := "Choose the best answer for each question.".toList,
          questions := .multiple_choice mcq })]
     else [])
    ++ (if config.true_false > 0 ∧ tf ≠ [] then
      [("true_false".toList,
        { title := "True/False Questions".toList,
          instructions := "Mark each statement as true or false.".toList,
          questions := .true_false tf })]
     else [])
    ++ (if config.short_answer > 0 ∧ sa ≠ [] then
      [("short_answer".toList,
        { title := "Short Answer Questions".toList,
          instructions := "Provide concise answers in 2-3 sentences.".toList,
          questions := .short_answer sa })]
     else [])
    ++ (if config.essay > 0 ∧ essay ≠ [] then
      [("essay".toList,
        { title := "Essay Questions".toList,
          instructions := "Provide detailed, well-structured answers.".toList,
          questions := .essay essay })]
     else [])
  { title := "AI-Generated Practice Exam (".toList ++ pyTitle config.difficulty
      ++ " Difficulty)".toList,
    instructions := "Answer all questions to the best of your ability. This exam is set to ".toList
      ++ pyUpper config.difficulty ++ " difficulty level.".toList,
    sections := sections,
    total_questions := (sections.map fun s => s.2.questions.count).sum }

/-- C4: if the generator for one section kind fails (malformed output) or
yields zero usable questions while other requested sections succeed, the
exam returned by `generate_complete_exam` contains entries only for the
surviving kinds — a kind is present in `sections` exactly when it was
requested and its generator produced questions — and `total_questions` is
the sum of question counts over the present sections only, excluding every
failed kind. -/
theorem C4_section_independence (config : ExamConfig)
    (mcq : List MCQuestion) (tf : List TFQuestion)
    (sa : List SAQuestion) (essay : List EssayQuestion) :
    (("multiple_choice".toList
        ∈ (generate_complete_exam config mcq tf sa essay).sections.map Prod.fst)
      ↔ (config.multiple_choice > 0 ∧ mcq ≠ []))
    ∧ (("true_false".toList
        ∈ (generate_complete_exam config mcq tf sa essay).sections.map Prod.fst)
      ↔ (config.true_false > 0 ∧ tf ≠ []))
    ∧ (("short_answer".toList
        ∈ (generate_complete_exam config mcq tf sa essay).sections.map Prod.fst)
      ↔ (config.short_answer > 0 ∧ sa ≠ []))
    ∧ (("essay".toList
        ∈ (generate_complete_exam config mcq tf sa essay).sections.map Prod.fst)
      ↔ (config.essay > 0 ∧ essay ≠ []))
    ∧ (generate_complete_exam config mcq tf sa essay).total_questions
        = (if config.multiple_choice > 0 ∧ mcq ≠ [] then mcq.length else 0)
          + (if config.true_false > 0 ∧ tf ≠ [] then tf.length else 0)
          + (if config.short_answer > 0 ∧ sa ≠ [] then sa.length else 0)
          + (if config.essay > 0 ∧ essay ≠ [] then essay.length else 0) := by
  refine ⟨?_, ?_, ?_, ?_, ?_⟩ <;>
    simp only [generate_complete_exam] <;>
    split_ifs with h1 h2 h3 h4 <;>
    simp_all [SectionQuestions.count] <;>
    omega

/-- Requested configuration for the C4 witness: every kind requested. -/
def witnessConfig : ExamConfig :=
  { multiple_choice := 5, true_false := 5, short_answer := 3, essay := 2,
    difficulty := "medium".toList }

/-- Surviving true/false questions for the C4 witness. -/
def witnessTF : List TFQuestion :=
  [{ statement := "Ultrasound travels faster in steel than in air.".toList,
     correct_answer := true, explanation := "Sound speed rises with stiffness.".toList }]

/-- Surviving short-answer questions for the C4 witness. -/
def witnessSA : List SAQuestion :=
  [{ question := "Name one surface NDT method.".toList,
     answer := "Dye penetrant testing.".toList,
     key_points := "penetrant, magnetic particle".toList }]

/-- Surviving essay questions for the C4 witness. -/
def witnessEssay : List EssayQuestion :=
  [{ question := "Compare ultrasonic and radiographic testing.".toList,
     key_points := "depth, geometry, safety".toList,
     guidance := "Discuss practical trade-offs.".toList }]

theorem C4_section_independence_witness :
    ("multiple_choice".toList
        ∉ (generate_complete_exam witnessConfig [] witnessTF witnessSA witnessEssay).sections.map
            Prod.fst)
    ∧ ("true_false".toList
        ∈ (generate_complete_exam witnessConfig [] witnessTF witnessSA witnessEssay).sections.map
            Prod.fst)
    ∧ (generate_complete_exam witnessConfig [] witnessTF witnessSA witnessEssay).total_questions
        = 3 :=
  ⟨fun h =>
      (((C4_section_independence witnessConfig [] witnessTF witnessSA witnessEssay).1).mp h).2
        rfl,
   ((C4_section_independence witnessConfig [] witnessTF witnessSA witnessEssay).2.1).mpr
     (by decide),
   by
    rw [(C4_section_independence witnessConfig [] witnessTF witnessSA witnessEssay).2.2.2.2]
    decide⟩

/-! ## Exam rendering (`ExamGenerator.format_exam_for_display` lines 328-372
and `ExamGenerator.format_answers_for_display` lines 374-433)

Both renderers build a list of output strings and join it with the
two-character escape sequence `\n` that `exam_generator.py` uses literally
(`"\\n".join(output)`).  Question numbering runs sequentially across all
sections starting at 1. -/

/-- Decimal rendering of a number, Python `str(n)` / f-string interpolation. -/
def natStr (n : Nat) : PyStr := (toString n).toList

/-- `f"**Question {question_num}:** {text}"`. -/
def questionHeader (num : Nat) (text : PyStr) : PyStr :=
  "**Question ".toList ++ natStr num ++ ":** ".toList ++ text

/-- Questions-only rendering of one multiple-choice question: the question
text and every choice as `f"  {choice}) {text}"`, the correct answer and
explanation omitted. -/
def formatMCQuestionOnly (num : Nat) (q : MCQuestion) : List PyStr :=
  questionHeader num q.question
    :: q.choices.map (fun ct => "  ".toList ++ ct.1 ++ ") ".toList ++ ct.2)
    ++ [[]]

/-- Questions-only rendering of one true/false question. -/
def formatTFQuestionOnly (num : Nat) (q : TFQuestion) : List PyStr :=
  [questionHeader num (q.statement ++ " (True/False)".toList), []]

/-- Questions-only rendering of one short-answer question: a blank line to
answer on. -/
def formatSAQuestionOnly (num : Nat) (q : SAQuestion) : List PyStr :=
  [questionHeader num q.question, "_____________________".toList, []]

/-- Questions-only rendering of one essay question (guidance shown when
non-empty, sample answers and key points omitted). -/
def formatEssayQuestionOnly (num : Nat) (q : EssayQuestion) : List PyStr :=
  questionHeader num q.question
    :: (if q.guidance ≠ [] then ["*Guidance: ".toList ++ q.guidance ++ "*".toList] else [])
    ++ [[]]

/-- Render a run of question blocks with consecutive question numbers. -/
def numberedBlocks {α : Type} (f : Nat → α → List PyStr) : Nat → List α → List PyStr
  | _, [] => []
  | num, q :: qs => f num q ++ numberedBlocks f (num + 1) qs

/-- Questions-only lines of one section: `## title`, italicised
instructions, the numbered question blocks, and the `-`*30 separator. -/
def sectionOnlyLines (sec : ExamSection) (startNum : Nat) : List PyStr :=
  ("## ".toList ++ sec.title)
    :: ("*".toList ++ sec.instructions ++ "*\\n".toList)
    :: ((match sec.questions with
        | .multiple_choice qs => numberedBlocks formatMCQuestionOnly startNum qs
        | .true_false qs => numberedBlocks formatTFQuestionOnly startNum qs
        | .short_answer qs => numberedBlocks formatSAQuestionOnly startNum qs
        | .essay qs => numberedBlocks formatEssayQuestionOnly startNum qs)
      ++ ["\\n".toList ++ List.replicate 30 '-' ++ "\\n".toList])

/-- Walk the sections in mapping order, threading the running question
number. -/
def sectionsOnlyGo : Nat → List (PyStr × ExamSection) → List PyStr
  | _, [] => []
  | num, (_key, sec) :: rest =>
      sectionOnlyLines sec num ++ sectionsOnlyGo (num + sec.questions.count) rest

/-- The output-line list of `format_exam_for_display`. -/
def examOnlyLines (exam : Exam) : List PyStr :=
  ("# ".toList ++ exam.title)
    :: ("\\n**Instructions:** ".toList ++ exam.instructions)
    :: ("\\n**Total Questions:** ".toList ++ natStr exam.total_questions)
    :: ("\\n".toList ++ List.replicate 50 '=' ++ "\\n".toList)
    :: sectionsOnlyGo 1 exam.sections

/-- `ExamGenerator.format_exam_for_display`: the questions-only view. -/
def format_exam_for_display (exam : Exam) : PyStr :=
  match exam.error with
  | some e => "❌ Exam Generation Error: ".toList ++ e
  | none => List.intercalate "\\n".toList (examOnlyLines exam)

/-- The marked rendering of the correct choice in the answer key:
`f"  ✅ **{choice}) {text}** ← CORRECT ANSWER"`. -/
def markedChoiceLine (ct : PyStr × PyStr) : PyStr :=
  "  ✅ **".toList ++ ct.1 ++ ") ".toList ++ ct.2 ++ "** ← CORRECT ANSWER".toList

/-- The plain rendering of a non-correct choice: `f"  {choice}) {text}"`. -/
def plainChoiceLine (ct : PyStr × PyStr) : PyStr :=
  "  ".toList ++ ct.1 ++ ") ".toList ++ ct.2

/-- Answer-key rendering of one multiple-choice question: the choice whose
letter equals `correct_answer` is marked, the others stay plain, and the
explanation is shown when non-empty. -/
def formatMCQuestionAnswers (num : Nat) (q : MCQuestion) : List PyStr :=
  questionHeader num q.question
    :: q.choices.map (fun ct =>
        if ct.1 = q.correct_answer then markedChoiceLine ct else plainChoiceLine ct)
    ++ (if q.explanation ≠ [] then
          ["💡 **Explanation:** ".toList ++ q.explanation] else [])
    ++ [[]]

/-- Answer-key rendering of one true/false question. -/
def formatTFQuestionAnswers (num : Nat) (q : TFQuestion) : List PyStr :=
  questionHeader num (q.statement ++ " (True/False)".toList)
    :: ("✅ **Correct Answer:** ".toList
        ++ (if q.correct_answer then "True".toList else "False".toList))
    :: (if q.explanation ≠ [] then
          ["💡 **Explanation:** ".toList ++ q.explanation] else [])
    ++ [[]]

/-- Answer-key rendering of one short-answer question.  The source reads
`q.get('sample_answer')`, a key the short-answer JSON contract
(`question`/`answer`/`key_points`) never supplies, so only the key-points
line can appear. -/
def formatSAQuestionAnswers (num : Nat) (q : SAQuestion) : List PyStr :=
  questionHeader num q.question
    :: (if q.key_points ≠ [] then
          ["🔑 **Key Points:** ".toList ++ q.key_points] else [])
    ++ [[]]

/-- Answer-key rendering of one essay question.  The source reads
`q.get('sample_outline')`, a key the essay JSON contract
(`question`/`key_points`/`guidance`) never supplies, so only the key-points
and guidance lines can appear. -/
def formatEssayQuestionAnswers (num : Nat) (q : EssayQuestion) : List PyStr :=
  questionHeader num q.question
    :: (if q.key_points ≠ [] then
          ["📋 **Key Points to Address:** ".toList ++ q.key_points] else [])
    ++ (if q.guidance ≠ [] then
          ["💭 **Additional Guidance:** ".toList ++ q.guidance] else [])
    ++ [[]]

/-- Answer-key lines of one section: `## title - Answers` followed by the
numbered answer blocks and the separator. -/
def sectionAnswersLines (sec : ExamSection) (startNum : Nat) : List PyStr :=
  ("## ".toList ++ sec.title ++ " - Answers".toList)
    :: ((match sec.questions with
        | .multiple_choice qs => numberedBlocks formatMCQuestionAnswers startNum qs
        | .true_false qs => numberedBlocks formatTFQuestionAnswers startNum qs
        | .short_answer qs => numberedBlocks formatSAQuestionAnswers startNum qs
        | .essay qs => numberedBlocks formatEssayQuestionAnswers startNum qs)
      ++ ["\\n".toList ++ List.replicate 30 '-' ++ "\\n".toList])

/-- Walk the sections in mapping order for the answer key, threading the
running question number. -/
def sectionsAnswersGo : Nat → List (PyStr × ExamSection) → List PyStr
  | _, [] => []
  | num, (_key, sec) :: rest =>
      sectionAnswersLines sec num ++ sectionsAnswersGo (num + sec.questions.count) rest

/-- The output-line list of `format_answers_for_display`. -/
def examAnswersLines (exam : Exam) : List PyStr :=
  ("# ".toList ++ exam.title ++ " - Answer Key".toList)
    :: "\\n**Complete Answer Key with Explanations**".toList
    :: ("**Total Questions:** ".toList ++ natStr exam.total_questions)
    :: ("\\n".toList ++ List.replicate 50 '=' ++ "\\n".toList)
    :: sectionsAnswersGo 1 exam.sections

/-- `ExamGenerator.format_answers_for_display`: the answer-key view. -/
def format_answers_for_display (exam : Exam) : PyStr :=
  match exam.error with
  | some e => "❌ Exam Generation Error: ".toList ++ e
  | none => List.intercalate "\\n".toList (examAnswersLines exam)

/-- Blank out the answer-bearing fields of a multiple-choice question. -/
def eraseMCQ (q : MCQuestion) : MCQuestion :=
  { q with correct_answer := [], explanation := [] }

/-- Blank out every multiple-choice answer in an exam; the questions-only
rendering cannot tell the difference (it reveals no correct answer and no
explanation). -/
def eraseMCAnswers (exam : Exam) : Exam :=
  { exam with sections := exam.sections.map (fun ks =>
      (ks.1, { ks.2 with questions := match ks.2.questions with
        | .multiple_choice qs => .multiple_choice (qs.map eraseMCQ)
        | other => other })) }

theorem numberedBlocks_map {α β : Type} (f : Nat → β → List PyStr) (g : α → β)
    (num : Nat) (qs : List α) :
    numberedBlocks f num (qs.map g) = numberedBlocks (fun n q => f n (g q)) num qs := by
  induction qs generalizing num with
  | nil => rfl
  | cons q qs ih => simp [numberedBlocks, ih]

theorem formatMCQuestionOnly_erase (num : Nat) (q : MCQuestion) :
    formatMCQuestionOnly num (eraseMCQ q) = formatMCQuestionOnly num q := rfl

theorem sectionOnlyLines_erase (sec : ExamSection) (startNum : Nat) :
    sectionOnlyLines
      { sec with questions := match sec.questions with
          | .multiple_choice qs => .multiple_choice (qs.map eraseMCQ)
          | other => other } startNum
      = sectionOnlyLines sec startNum := by
  cases hq : sec.questions with
  | multiple_choice qs =>
    simp only [sectionOnlyLines, hq, numberedBlocks_map]
    rfl
  | true_false qs => simp [sectionOnlyLines, hq]
  | short_answer qs => simp [sectionOnlyLines, hq]
  | essay qs => simp [sectionOnlyLines, hq]

theorem count_erase (sq : SectionQuestions) :
    (match sq with
      | .multiple_choice qs => SectionQuestions.multiple_choice (qs.map eraseMCQ)
      | other => other).count = sq.count := by
  cases sq <;> simp [SectionQuestions.count]

theorem sectionsOnlyGo_erase (sections : List (PyStr × ExamSection)) (num : Nat) :
    sectionsOnlyGo num (sections.map (fun ks =>
      (ks.1, { ks.2 with questions := match ks.2.questions with
        | .multiple_choice qs => .multiple_choice (qs.map eraseMCQ)
        | other => other })))
      = sectionsOnlyGo num sections := by
  induction sections generalizing num with
  | nil => rfl
  | cons ks rest ih =>
    simp only [List.map_cons, sectionsOnlyGo, sectionOnlyLines_erase, count_erase]
    rw [ih]

theorem format_exam_for_display_erase (exam : Exam) :
    format_exam_for_display (eraseMCAnswers exam) = format_exam_for_display exam := by
  cases herr : exam.error with
  | some e => simp [format_exam_for_display, eraseMCAnswers, herr]
  | none =>
    simp only [format_exam_for_display, eraseMCAnswers, herr, examOnlyLines,
      sectionsOnlyGo_erase]

theorem mem_numberedBlocks {α : Type} (f : Nat → α → List PyStr) (num : Nat)
    (qs : List α) (q : α) (hq : q ∈ qs) :
    ∃ m, ∀ x ∈ f m q, x ∈ numberedBlocks f num qs := by
  induction qs generalizing num with
  | nil => simp at hq
  | cons hd tl ih =>
    rcases List.mem_cons.mp hq with hhd | htl
    · subst hhd
      exact ⟨num, fun x hx => by simp [numberedBlocks, List.mem_append, hx]⟩
    · obtain ⟨m, hm⟩ := ih (num + 1) htl
      exact ⟨m, fun x hx => by simp [numberedBlocks, List.mem_append, hm x hx]⟩

theorem countP_eq_one_of_nodup_keys (l : List (PyStr × PyStr)) (a t : PyStr)
    (hnodup : (l.map Prod.fst).Nodup) (hmem : (a, t) ∈ l) :
    l.countP (fun ct => ct.1 == a) = 1 := by
  induction l with
  | nil => simp at hmem
  | cons hd tl ih =>
    rw [List.map_cons] at hnodup
    obtain ⟨hnotin, hnd⟩ := List.nodup_cons.mp hnodup
    rcases List.mem_cons.mp hmem with hhd | htl
    · subst hhd
      have hzero : tl.countP (fun ct => ct.1 == a) = 0 := by
        apply List.countP_eq_zero.mpr
        intro ct hct
        simp only [beq_iff_eq]
        intro hfst
        exact hnotin (hfst ▸ List.mem_map.mpr ⟨ct, hct, rfl⟩)
      simp [List.countP_cons, hzero]
    · have hne : ¬(hd.1 == a) := by
        simp only [beq_iff_eq]
        intro hfst
        exact hnotin (hfst ▸ List.mem_map.mpr ⟨(a, t), htl, rfl⟩)
      simp [List.countP_cons, hne, ih hnd htl]

theorem mem_sectionsAnswersGo (sections : List (PyStr × ExamSection)) (num : Nat)
    (key : PyStr) (sec : ExamSection) (hmem : (key, sec) ∈ sections) :
    ∃ start, ∀ x ∈ sectionAnswersLines sec start, x ∈ sectionsAnswersGo num sections := by
  induction sections generalizing num with
  | nil => simp at hmem
  | cons ks rest ih =>
    rcases List.mem_cons.mp hmem with hhd | htl
    · refine ⟨num, fun x hx => ?_⟩
      obtain ⟨k, s⟩ := ks
      obtain ⟨hk, hs⟩ := Prod.mk.injEq .. ▸ hhd
      simp only [sectionsAnswersGo, List.mem_append]
      left
      cases hk
      cases hs
      simpa using hx
    · obtain ⟨start, hstart⟩ := ih (num + ks.2.questions.count) htl
      refine ⟨start, fun x hx => ?_⟩
      obtain ⟨k, s⟩ := ks
      simp only [sectionsAnswersGo, List.mem_append]
      exact Or.inr (hstart x hx)

/-- C5: for an exam containing a multiple-choice question whose correct
letter is a key of its `choices` mapping, the answer-key rendering marks
exactly that choice — exactly one choice letter equals `correct_answer`,
its line is rendered in the marked `✅ … ← CORRECT ANSWER` form inside the
`format_answers_for_display` line list, every other choice is rendered
plainly — while the questions-only rendering `format_exam_for_display` is
unchanged when every correct answer and explanation is blanked out, so it
reveals neither. -/
theorem C5_answer_key_fidelity (exam : Exam) (sec : ExamSection)
    (qs : List MCQuestion) (q : MCQuestion) (t : PyStr)
    (hsec : ("multiple_choice".toList, sec) ∈ exam.sections)
    (hqs : sec.questions = .multiple_choice qs)
    (hq : q ∈ qs)
    (hnodup : (q.choices.map Prod.fst).Nodup)
    (hct : (q.correct_answer, t) ∈ q.choices) :
    (q.choices.countP (fun ct => ct.1 == q.correct_answer) = 1)
    ∧ (∃ num,
        markedChoiceLine (q.correct_answer, t) ∈ formatMCQuestionAnswers num q
        ∧ (∀ ct ∈ q.choices, ct.1 ≠ q.correct_answer →
            plainChoiceLine ct ∈ formatMCQuestionAnswers num q)
        ∧ ∀ x ∈ formatMCQuestionAnswers num q, x ∈ examAnswersLines exam)
    ∧ format_exam_for_display (eraseMCAnswers exam) = format_exam_for_display exam := by
  refine ⟨?_, ?_, format_exam_for_display_erase exam⟩
  · exact countP_eq_one_of_nodup_keys q.choices q.correct_answer t hnodup hct
  · obtain ⟨start, hstart⟩ :=
      mem_sectionsAnswersGo exam.sections 1 "multiple_choice".toList sec hsec
    obtain ⟨num, hnum⟩ := mem_numberedBlocks formatMCQuestionAnswers start qs q hq
    refine ⟨num, ?_, ?_, ?_⟩
    · have h1 : markedChoiceLine (q.correct_answer, t)
          ∈ q.choices.map (fun ct =>
              if ct.1 = q.correct_answer then markedChoiceLine ct else plainChoiceLine ct) :=
        List.mem_map.mpr ⟨(q.correct_answer, t), hct, if_pos rfl⟩
      exact List.mem_cons_of_mem _ (List.mem_append_left _ (List.mem_append_left _ h1))
    · intro ct hctm hne
      have h1 : plainChoiceLine ct
          ∈ q.choices.map (fun ct =>
              if ct.1 = q.correct_answer then markedChoiceLine ct else plainChoiceLine ct) :=
        List.mem_map.mpr ⟨ct, hctm, if_neg hne⟩
      exact List.mem_cons_of_mem _ (List.mem_append_left _ (List.mem_append_left _ h1))
    · intro x hx
      have hxsec : x ∈ sectionAnswersLines sec start := by
        simp only [sectionAnswersLines, hqs, List.mem_cons, List.mem_append]
        exact Or.inr (Or.inl (hnum x hx))
      have := hstart x hxsec
      simp only [examAnswersLines, List.mem_cons]
      tauto

/-- Multiple-choice question with correct letter `B`, for the C5 witness. -/
def witnessMCQ : MCQuestion :=
  { question := "Which NDT method uses high-frequency sound?".toList,
    choices := [("A".toList, "Radiographic testing".toList),
                ("B".toList, "Ultrasonic testing".toList),
                ("C".toList, "Dye penetrant testing".toList),
                ("D".toList, "Visual inspection".toList)],
    correct_answer := "B".toList,
    explanation := "Ultrasonic testing uses ultrasound pulses.".toList }

/-- Multiple-choice section holding `witnessMCQ`. -/
def witnessMCSection : ExamSection :=
  { title := "Multiple Choice Questions".toList,
    instructions := "Choose the best answer for each question.".toList,
    questions := .multiple_choice [witnessMCQ] }

/-- One-section exam holding `witnessMCQ`. -/
def witnessExam : Exam :=
  { title := "AI-Generated Practice Exam (Medium Difficulty)".toList,
    instructions := "Answer all questions to the best of your ability.".toList,
    sections := [("multiple_choice".toList, witnessMCSection)],
    total_questions := 1 }

theorem C5_answer_key_fidelity_witness :
    (witnessMCQ.choices.countP (fun ct => ct.1 == witnessMCQ.correct_answer) = 1)
    ∧ format_exam_for_display (eraseMCAnswers witnessExam)
        = format_exam_for_display witnessExam :=
  ⟨(C5_answer_key_fidelity witnessExam witnessMCSection [witnessMCQ] witnessMCQ
      "Ultrasonic testing".toList (by decide) rfl (by decide) (by decide) (by decide)).1,
   (C5_answer_key_fidelity witnessExam witnessMCSection [witnessMCQ] witnessMCQ
      "Ultrasonic testing".toList (by decide) rfl (by decide) (by decide) (by decide)).2.2⟩

/-! ## Question answering (`RAGSystem.ask_question`,
`src/rag_system.py` lines 347-469)

The OpenAI chat completion is the external `complete` parameter; the two
retrieval results (`get_document_overview(4000)` and
`get_relevant_context(question, 3000)`) are passed in as the strings they
would return. -/

/-- Python `str.lower()`. -/
def pyLower (s : PyStr) : PyStr := s.map Char.toLower

/-- Does `pat` occur at the head of the input? -/
def startsWithSeq : PyStr → PyStr → Bool
  | [], _ => true
  | _ :: _, [] => false
  | p :: ps, c :: cs => p == c && startsWithSeq ps cs

/-- Does `pat` occur at the end of the input (`str.endswith`)? -/
def endsWithSeq (pat s : PyStr) : Bool := startsWithSeq pat.reverse s.reverse

/-- Python substring containment `pat in s`. -/
def containsSub (pat : PyStr) : PyStr → Bool
  | [] => startsWithSeq pat []
  | c :: rest => startsWithSeq pat (c :: rest) || containsSub pat rest

/-- The apostrophe character (U+0027). -/
def apos : Char := Char.ofNat 39

/-- The broad-intent keyword list of `ask_question`. -/
def overview_keywords : List PyStr :=
  ["what is".toList, "tell me about".toList, "describe".toList, "overview".toList,
   "summary".toList, "about the file".toList, "content of".toList, "main topic".toList,
   "what does".toList, "explain the document".toList, "document all about".toList,
   "summarize".toList, "what does this cover".toList, "main subject".toList,
   "what are we learning".toList, "course content".toList, "lecture about".toList]

/-- `is_overview_question`: any broad-intent keyword occurs in the
lower-cased question. -/
def is_overview_question (question : PyStr) : Bool :=
  overview_keywords.any fun kw => containsSub kw (pyLower question)

/-- One chat message `{role, content}` sent to the model. -/
structure Message where
  role : PyStr
  content : PyStr
deriving Repr, DecidableEq

/-- One chat-history entry, as appended by `StudyChatbot.ask_question`. -/
structure ChatEntry where
  question : PyStr
  answer : PyStr
  sources : List PyStr
  has_context : Bool
deriving Repr, DecidableEq

/-- The dictionary `RAGSystem.ask_question` returns (the success path also
carries `token_usage`, an observability field not modelled). -/
structure QAResult where
  answer : PyStr
  sources : List PyStr
  has_context : Bool
deriving Repr, DecidableEq

/-- The fixed no-context reply of `ask_question`. -/
def no_context_answer : PyStr :=
  "I couldn".toList ++ [apos]
    ++ "t find relevant information in your uploaded documents to answer this question. Please make sure you".toList
    ++ [apos] ++ "ve uploaded relevant materials or try rephrasing your question.".toList

/-- The overview system prompt of `ask_question` (context interpolated). -/
def overviewSystemPrompt (context : PyStr) : PyStr :=
  "You are a helpful AI study assistant. The user is asking for an overview of their uploaded document(s). Analyze the content below and provide a comprehensive summary.\n\nDocument Content:\n".toList
    ++ context
    ++ "\n\nInstructions:\n1. Identify the main subject/topic of the document(s)\n2. Summarize the key themes and concepts covered\n3. Highlight important sections or chapters\n4. Mention specific topics, methods, or areas discussed\n5. Be specific about what the document teaches or covers\n6. Structure your response clearly with main points\n7. Use information directly from the provided content".toList

/-- The specific-question system prompt of `ask_question`. -/
def specificSystemPrompt (context : PyStr) : PyStr :=
  "You are a helpful AI study assistant. Answer the user".toList ++ [apos]
    ++ "s question based on the provided context from their academic documents.\n            \nContext from uploaded documents:\n".toList
    ++ context
    ++ "\n\nInstructions:\n1. Answer based primarily on the provided context\n2. Be accurate and cite specific information from the documents\n3. If the context doesn".toList
    ++ [apos]
    ++ "t fully answer the question, say so\n4. Use clear, educational language\n5. Structure your response for easy understanding".toList

/-- Python `history[-5:]`. -/
def lastFive {α : Type} (l : List α) : List α := l.drop (l.length - 5)

/-- The user/assistant pairs appended from the last five history entries. -/
def historyMessages : List ChatEntry → List Message
  | [] => []
  | c :: rest =>
    ⟨"user".toList, c.question⟩ :: ⟨"assistant".toList, c.answer⟩ :: historyMessages rest

/-- Splitting loop for Python `str.split(sep)` with a non-empty separator
(`fuel` bounds the recursion by the input length). -/
def splitOnSeqGo (sep : PyStr) : Nat → PyStr → PyStr → List PyStr
  | 0, s, acc => [acc.reverse ++ s]
  | fuel + 1, s, acc =>
    match s with
    | [] => [acc.reverse]
    | c :: rest =>
      if startsWithSeq sep s then
        acc.reverse :: splitOnSeqGo sep fuel (s.drop sep.length) []
      else
        splitOnSeqGo sep fuel rest (c :: acc)

/-- Python `s.split(sep)` for a non-empty separator. -/
def splitOnSeq (sep s : PyStr) : List PyStr :=
  splitOnSeqGo sep (s.length + 1) s []

/-- The source-extraction loop of `ask_question`: collect the distinct
`[From: …]` labels, in order, from the lines of the context (which was
joined with the literal two-character `\n` escape). -/
def extractSourcesGo : List PyStr → List PyStr → List PyStr
  | [], sources => sources
  | line :: rest, sources =>
    if startsWithSeq "[From: ".toList line && endsWithSeq "]".toList line then
      let source := (line.drop 7).dropLast
      if source ∈ sources then extractSourcesGo rest sources
      else extractSourcesGo rest (sources ++ [source])
    else extractSourcesGo rest sources

/-- Source labels of a context string. -/
def extract_sources (context : PyStr) : List PyStr :=
  extractSourcesGo (splitOnSeq "\\n".toList context) []

/-- `RAGSystem.ask_question(question, chat_history)`: pick the overview or
specific retrieval result, answer with the fixed message when it is empty,
otherwise build the prompt messages and call the model. -/
def rag_ask_question (question : PyStr) (chat_history : List ChatEntry)
    (overview_context specific_context : PyStr)
    (complete : List Message → PyStr) : QAResult :=
  let context :=
    if is_overview_question question then overview_context else specific_context
  if context = [] then
    { answer := no_context_answer, sources := [], has_context := false }
  else
    let system_prompt :=
      if is_overview_question question then overviewSystemPrompt context
      else specificSystemPrompt context
    let messages :=
      ⟨"system".toList, system_prompt⟩
        :: historyMessages (lastFive chat_history)
        ++ [⟨"user".toList, question⟩]
    let answer := complete messages
    { answer := answer, sources := extract_sources context, has_context := true }

/-- C6: whenever retrieval yields no context (the selected context string is
empty), `ask_question` returns the fixed explanatory no-context message with
`has_context = False` and an empty sources list, and the result does not
depend on the model at all (no completion is consulted). -/
theorem C6_no_context_reply (question : PyStr) (chat_history : List ChatEntry)
    (overview_context specific_context : PyStr)
    (complete other_complete : List Message → PyStr)
    (hempty : (if is_overview_question question then overview_context
               else specific_context) = []) :
    rag_ask_question question chat_history overview_context specific_context complete
      = { answer := no_context_answer, sources := [], has_context := false }
    ∧ rag_ask_question question chat_history overview_context specific_context complete
      = rag_ask_question question chat_history overview_context specific_context
          other_complete := by
  constructor
  · simp [rag_ask_question, hempty]
  · simp [rag_ask_question, hempty]

theorem C6_no_context_reply_witness :
    rag_ask_question "Define flux leakage.".toList [] "unused overview".toList []
        (fun _ => "fabricated model answer".toList)
      = { answer := no_context_answer, sources := [], has_context := false } :=
  (C6_no_context_reply "Define flux leakage.".toList [] "unused overview".toList []
    (fun _ => "fabricated model answer".toList)
    (fun _ => "another model".toList) (by decide)).1

/-! ## Chat-history maintenance (`StudyChatbot.ask_question`,
`src/chatbot.py` lines 113-152; history-touching operations lines 247-309)

`StudyChatbot` state is its chat history plus the uploaded-documents
mapping (`doc_id → info`, modelled as an association list in insertion
order). -/

/-- The mutable state of a `StudyChatbot` instance. -/
structure ChatbotState where
  chat_history : List ChatEntry
  uploaded_documents : List (PyStr × PyStr)
deriving Repr, DecidableEq

/-- The `chat_entry` dictionary `StudyChatbot.ask_question` appends. -/
def madeChatEntry (question : PyStr) (r : QAResult) : ChatEntry :=
  { question := question, answer := r.answer, sources := r.sources,
    has_context := r.has_context }

/-- `StudyChatbot.ask_question`: delegate to the RAG system, append the new
turn, then `pop(0)` once when the history exceeds
`settings.max_history_length`. -/
def chatbot_ask_question (st : ChatbotState) (max_history_length : Nat)
    (question : PyStr) (overview_context specific_context : PyStr)
    (complete : List Message → PyStr) : ChatbotState × QAResult :=
  let response :=
    rag_ask_question question st.chat_history overview_context specific_context complete
  let h := st.chat_history ++ [madeChatEntry question response]
  let h := if h.length > max_history_length then h.drop 1 else h
  ({ st with chat_history := h }, response)

/-- Python dict assignment `m[k] = v` on an insertion-ordered mapping. -/
def dictInsert (m : List (PyStr × PyStr)) (k v : PyStr) : List (PyStr × PyStr) :=
  if (m.map Prod.fst).contains k then
    m.map (fun kv => if kv.1 = k then (k, v) else kv)
  else m ++ [(k, v)]

/-- `StudyChatbot.upload_pdf`: on success, record the document under its
id; the chat history is untouched on every path. -/
def chatbot_upload_pdf (st : ChatbotState) (doc_id path : PyStr)
    (success : Bool) : ChatbotState :=
  if success then
    { st with uploaded_documents := dictInsert st.uploaded_documents doc_id path }
  else st

/-- `StudyChatbot.clear_chat_history`. -/
def clear_chat_history (st : ChatbotState) : ChatbotState :=
  { st with chat_history := [] }

/-- `StudyChatbot.reset_system`: clear history and document tracking. -/
def reset_system (_st : ChatbotState) : ChatbotState :=
  { chat_history := [], uploaded_documents := [] }

/-- C8: after `StudyChatbot.ask_question` the chat history stays within
`settings.max_history_length` (given it was within the bound before); the
new turn is appended at the end and, when the bound would be exceeded, the
oldest entry is the one removed; `upload_pdf` never mutates the history,
and only the explicit clearing/reset operations empty it. -/
theorem C8_history_bound (st : ChatbotState) (max_history_length : Nat)
    (question overview_context specific_context : PyStr)
    (complete : List Message → PyStr) (doc_id path : PyStr) (success : Bool)
    (hinv : st.chat_history.length ≤ max_history_length) :
    ((chatbot_ask_question st max_history_length question overview_context
        specific_context complete).1.chat_history.length ≤ max_history_length)
    ∧ ((chatbot_ask_question st max_history_length question overview_context
        specific_context complete).1.chat_history
      = (st.chat_history
          ++ [madeChatEntry question (rag_ask_question question st.chat_history
                overview_context specific_context complete)]).drop
          (if st.chat_history.length + 1 > max_history_length then 1 else 0))
    ∧ ((chatbot_ask_question st max_history_length question overview_context
        specific_context complete).1.uploaded_documents = st.uploaded_documents)
    ∧ (chatbot_upload_pdf st doc_id path success).chat_history = st.chat_history
    ∧ (clear_chat_history st).chat_history = []
    ∧ (reset_system st).chat_history = [] := by
  refine ⟨?_, ?_, ?_, ?_, rfl, rfl⟩
  · simp only [chatbot_ask_question]
    split_ifs with h
    · simp only [List.length_drop, List.length_append, List.length_singleton]
      omega
    · simp only [List.length_append, List.length_singleton] at h ⊢
      omega
  · simp only [chatbot_ask_question, List.length_append, List.length_singleton]
    split_ifs with h
    · rfl
    · simp
  · simp only [chatbot_ask_question]
  · simp only [chatbot_upload_pdf]
    split_ifs <;> rfl

/-- Chatbot state at the history bound, for the C8 witness
(`settings.max_history_length = 10` in `config.py`; two entries with the
bound set to 2 exercise the eviction path). -/
def fullHistoryState : ChatbotState :=
  { chat_history :=
      [{ question := "q1".toList, answer := "a1".toList, sources := [],
         has_context := false },
       { question := "q2".toList, answer := "a2".toList, sources := [],
         has_context := false }],
    uploaded_documents := [("notes".toList, "notes.pdf".toList)] }

theorem C8_history_bound_witness :
    ((chatbot_ask_question fullHistoryState 2 "q3".toList [] [] (fun _ => [])).1.chat_history.length
        ≤ 2)
    ∧ ((chatbot_ask_question fullHistoryState 2 "q3".toList [] [] (fun _ => [])).1.chat_history
      = (fullHistoryState.chat_history
          ++ [madeChatEntry "q3".toList (rag_ask_question "q3".toList
                fullHistoryState.chat_history [] [] (fun _ => []))]).drop
          (if fullHistoryState.chat_history.length + 1 > 2 then 1 else 0))
    ∧ (clear_chat_history fullHistoryState).chat_history = [] :=
  ⟨(C8_history_bound fullHistoryState 2 "q3".toList [] [] (fun _ => [])
      "notes".toList "notes.pdf".toList true (by decide)).1,
   (C8_history_bound fullHistoryState 2 "q3".toList [] [] (fun _ => [])
      "notes".toList "notes.pdf".toList true (by decide)).2.1,
   (C8_history_bound fullHistoryState 2 "q3".toList [] [] (fun _ => [])
      "notes".toList "notes.pdf".toList true (by decide)).2.2.2.2.1⟩

/-! ## Copy semantics of the chatbot accessors (`StudyChatbot.get_chat_history`
line 247-249 and `StudyChatbot.get_uploaded_documents` lines 261-263)

`return self.chat_history.copy()` / `return self.uploaded_documents.copy()`
hand the caller a fresh object holding the same elements.  Python object
identity is modelled with a small store: references are indices into a list
of cells, `.copy()` allocates a fresh cell with the same contents, and
mutation writes through a reference. -/

/-- A store of mutable Python objects of type `α`; references are indices. -/
structure Heap (α : Type) where
  cells : List α
deriving Repr

/-- Dereference. -/
def Heap.read {α : Type} (h : Heap α) (r : Nat) : Option α := h.cells[r]?

/-- In-place mutation through a reference. -/
def Heap.write {α : Type} (h : Heap α) (r : Nat) (v : α) : Heap α :=
  ⟨h.cells.set r v⟩

/-- Allocate a fresh object, returning its reference. -/
def Heap.alloc {α : Type} (h : Heap α) (v : α) : Heap α × Nat :=
  (⟨h.cells ++ [v]⟩, h.cells.length)

/-- `StudyChatbot.get_chat_history`: allocate and return a copy of the
history list stored at `self`. -/
def get_chat_history (h : Heap (List ChatEntry)) (self : Nat) :
    Heap (List ChatEntry) × Nat :=
  h.alloc ((h.read self).getD [])

/-- `StudyChatbot.get_uploaded_documents`: allocate and return a copy of the
document mapping stored at `self`. -/
def get_uploaded_documents (h : Heap (List (PyStr × PyStr))) (self : Nat) :
    Heap (List (PyStr × PyStr)) × Nat :=
  h.alloc ((h.read self).getD [])

theorem heap_copy_frame {α : Type} (h : Heap α) (self : Nat) (d : α)
    (hself : self < h.cells.length) :
    (h.alloc ((h.read self).getD d)).2 ≠ self
    ∧ (h.alloc ((h.read self).getD d)).1.read self = h.read self
    ∧ (h.alloc ((h.read self).getD d)).1.read (h.alloc ((h.read self).getD d)).2
        = h.read self
    ∧ ∀ v, ((h.alloc ((h.read self).getD d)).1.write
          (h.alloc ((h.read self).getD d)).2 v).read self = h.read self := by
  refine ⟨fun heq => absurd heq.symm (Nat.ne_of_lt hself), ?_, ?_, ?_⟩
  · simp only [Heap.alloc, Heap.read]
    rw [List.getElem?_append_left hself]
  · simp only [Heap.alloc, Heap.read]
    rw [List.getElem?_concat_length]
    simp [List.getElem?_eq_getElem hself]
  · intro v
    simp only [Heap.alloc, Heap.write, Heap.read]
    rw [List.getElem?_set_ne (by omega)]
    rw [List.getElem?_append_left hself]

/-- C10: `get_chat_history` and `get_uploaded_documents` return copies —
the returned reference is distinct from the chatbot's own, it holds the same
contents, and writing any value through it leaves the internal history /
document tracking unchanged. -/
theorem C10_accessors_return_copies (hh : Heap (List ChatEntry))
    (hd : Heap (List (PyStr × PyStr))) (selfh selfd : Nat)
    (hselfh : selfh < hh.cells.length) (hselfd : selfd < hd.cells.length) :
    ((get_chat_history hh selfh).2 ≠ selfh
      ∧ (get_chat_history hh selfh).1.read selfh = hh.read selfh
      ∧ (get_chat_history hh selfh).1.read (get_chat_history hh selfh).2
          = hh.read selfh
      ∧ ∀ v, ((get_chat_history hh selfh).1.write (get_chat_history hh selfh).2 v).read
            selfh = hh.read selfh)
    ∧ ((get_uploaded_documents hd selfd).2 ≠ selfd
      ∧ (get_uploaded_documents hd selfd).1.read selfd = hd.read selfd
      ∧ (get_uploaded_documents hd selfd).1.read (get_uploaded_documents hd selfd).2
          = hd.read selfd
      ∧ ∀ v, ((get_uploaded_documents hd selfd).1.write
            (get_uploaded_documents hd selfd).2 v).read selfd = hd.read selfd) :=
  ⟨heap_copy_frame hh selfh [] hselfh, heap_copy_frame hd selfd [] hselfd⟩

/-- Single-object heaps for the C10 witness. -/
def witnessHistoryHeap : Heap (List ChatEntry) :=
  ⟨[[{ question := "q".toList, answer := "a".toList, sources := [],
       has_context := true }]]⟩

/-- Single-object document heap for the C10 witness. -/
def witnessDocsHeap : Heap (List (PyStr × PyStr)) :=
  ⟨[[("notes".toList, "notes.pdf".toList)]]⟩

theorem C10_accessors_return_copies_witness :
    ((get_chat_history witnessHistoryHeap 0).2 ≠ 0
      ∧ (get_chat_history witnessHistoryHeap 0).1.read 0 = witnessHistoryHeap.read 0
      ∧ ((get_chat_history witnessHistoryHeap 0).1.write
            (get_chat_history witnessHistoryHeap 0).2 []).read 0
          = witnessHistoryHeap.read 0)
    ∧ ((get_uploaded_documents witnessDocsHeap 0).2 ≠ 0
      ∧ ((get_uploaded_documents witnessDocsHeap 0).1.write
            (get_uploaded_documents witnessDocsHeap 0).2 []).read 0
          = witnessDocsHeap.read 0) :=
  ⟨⟨(C10_accessors_return_copies witnessHistoryHeap witnessDocsHeap 0 0
        (by decide) (by decide)).1.1,
    (C10_accessors_return_copies witnessHistoryHeap witnessDocsHeap 0 0
        (by decide) (by decide)).1.2.1,
    (C10_accessors_return_copies witnessHistoryHeap witnessDocsHeap 0 0
        (by decide) (by decide)).1.2.2.2 []⟩,
   ⟨(C10_accessors_return_copies witnessHistoryHeap witnessDocsHeap 0 0
        (by decide) (by decide)).2.1,
    (C10_accessors_return_copies witnessHistoryHeap witnessDocsHeap 0 0
        (by decide) (by decide)).2.2.2.2 []⟩⟩

/-! ## Overview retrieval (`RAGSystem.get_document_overview`,
`src/rag_system.py` lines 235-312)

The vector store is the external `store` parameter (`store q k` models
`vector_store.similarity_search(q, k=k)`), and Python's opaque `hash` is the
parameter `hsh` applied to the first 200 characters of a passage. -/

/-- The fixed introspective queries of `get_document_overview`. -/
def intro_queries : List PyStr :=
  ["introduction overview summary definition".toList,
   "objectives goals purpose learning outcomes".toList,
   "abstract conclusion summary".toList,
   "introduction definition what is".toList]

/-- `hash(doc.page_content[:200])`. -/
def contentHash (hsh : PyStr → Int) (d : Document) : Int :=
  hsh (d.page_content.take 200)

/-- The inner collection loop: append each document whose content hash is
unseen, recording the hash. -/
def addUnseen (hsh : PyStr → Int) :
    List Document → List Document → List Int → List Document × List Int
  | [], acc, seen => (acc, seen)
  | d :: ds, acc, seen =>
    let content_hash := contentHash hsh d
    if content_hash ∈ seen then addUnseen hsh ds acc seen
    else addUnseen hsh ds (acc ++ [d]) (content_hash :: seen)

/-- The outer query loop: run each introspective query (`k=5`), collect the
unseen results, and `break` once 15 unique passages are gathered. -/
def introLoop (hsh : PyStr → Int) (store : PyStr → Nat → List Document) :
    List PyStr → List Document → List Int → List Document × List Int
  | [], acc, seen => (acc, seen)
  | q :: qs, acc, seen =>
    let acc' := addUnseen hsh (store q 5) acc seen
    if 15 ≤ acc'.1.length then acc'
    else introLoop hsh store qs acc'.1 acc'.2

/-- The top-up loop over the generic `"main content"` results: append a
document only while its hash is unseen and fewer than 15 are collected. -/
def addUnseenCapped (hsh : PyStr → Int) :
    List Document → List Document → List Int → List Document × List Int
  | [], acc, seen => (acc, seen)
  | d :: ds, acc, seen =>
    let content_hash := contentHash hsh d
    if content_hash ∉ seen ∧ acc.length < 15 then
      addUnseenCapped hsh ds (acc ++ [d]) (content_hash :: seen)
    else addUnseenCapped hsh ds acc seen

/-- The deduplicated document collection of `get_document_overview`:
the introspective queries, topped up from `"main content"` (`k=10`) when
fewer than 5 were found. -/
def overviewDocs (hsh : PyStr → Int) (store : PyStr → Nat → List Document) :
    List Document :=
  let r := introLoop hsh store intro_queries [] []
  if r.1.length < 5 then
    (addUnseenCapped hsh (store "main content".toList 10) r.1 r.2).1
  else r.1

/-- The keyword list of `get_intro_score`. -/
def intro_keywords : List PyStr :=
  ["introduction".toList, "overview".toList, "summary".toList, "define".toList,
   "definition".toList, "objectives".toList, "goals".toList, "purpose".toList,
   "outline".toList, "after this lesson".toList]

/-- `get_intro_score`: one point per keyword present in the lower-cased
content, plus a 2-point bonus for `page 1` / `introduction` markers. -/
def get_intro_score (content : PyStr) : Nat :=
  let content_lower := pyLower content
  intro_keywords.countP (fun kw => containsSub kw content_lower)
    + (if containsSub "page 1".toList content_lower
         || containsSub "introduction".toList content_lower then 2 else 0)

/-- The comparator of `overview_docs.sort(key=get_intro_score, reverse=True)`
for the stable merge sort: highest score first. -/
def introDescending (a b : Document) : Bool :=
  get_intro_score b.page_content ≤ get_intro_score a.page_content

/-- The budgeting loop of `get_document_overview`: like
`get_relevant_context` but a truncated slice needs more than 200 characters
of remaining budget. -/
def selectOverview (max_tokens : Nat) : List Document → Nat → List (Document × PyStr)
  | [], _ => []
  | doc :: docs, token_count =>
    let content := doc.page_content
    let est := estimated_tokens content
    if token_count + est > max_tokens then
      let remaining_chars := (max_tokens - token_count) * 4
      if remaining_chars > 200 then
        [(doc, content.take remaining_chars ++ ellipsis)]
      else []
    else
      (doc, content) :: selectOverview max_tokens docs (token_count + est)

/-- `RAGSystem.get_document_overview(max_tokens)`: collect, deduplicate,
rank by intro score and pack into the budget; parts are rendered with the
`'Document'` source default and joined under `=== DOCUMENT SECTION ===`
markers (this function uses real newlines, unlike `get_relevant_context`). -/
def get_document_overview (hsh : PyStr → Int) (store : PyStr → Nat → List Document)
    (max_tokens : Nat) : PyStr :=
  let docs := overviewDocs hsh store
  if docs = [] then []
  else
    let sorted := docs.mergeSort introDescending
    List.intercalate "\n\n=== DOCUMENT SECTION ===\n\n".toList
      ((selectOverview max_tokens sorted 0).map fun p =>
        "[From: ".toList ++ p.1.filename.getD "Document".toList ++ "]\n".toList ++ p.2)

theorem addUnseen_inv (hsh : PyStr → Int) (l : List Document)
    (acc : List Document) (seen : List Int)
    (hsub : ∀ d ∈ acc, contentHash hsh d ∈ seen)
    (hpw : acc.Pairwise (fun a b => contentHash hsh a ≠ contentHash hsh b)) :
    (∀ d ∈ (addUnseen hsh l acc seen).1,
        contentHash hsh d ∈ (addUnseen hsh l acc seen).2)
    ∧ (addUnseen hsh l acc seen).1.Pairwise
        (fun a b => contentHash hsh a ≠ contentHash hsh b)
    ∧ ∀ s ∈ seen, s ∈ (addUnseen hsh l acc seen).2 := by
  induction l generalizing acc seen with
  | nil => exact ⟨hsub, hpw, fun s hs => hs⟩
  | cons d ds ih =>
    by_cases hmem : contentHash hsh d ∈ seen
    · simp only [addUnseen, if_pos hmem]
      exact ih acc seen hsub hpw
    · simp only [addUnseen, if_neg hmem]
      have hsub' : ∀ e ∈ acc ++ [d],
          contentHash hsh e ∈ contentHash hsh d :: seen := by
        intro e he
        rcases List.mem_append.mp he with h | h
        · exact List.mem_cons_of_mem _ (hsub e h)
        · simp [List.mem_singleton.mp h]
      have hpw' : (acc ++ [d]).Pairwise
          (fun a b => contentHash hsh a ≠ contentHash hsh b) := by
        rw [List.pairwise_append]
        refine ⟨hpw, List.pairwise_singleton _ _, ?_⟩
        intro a ha b hb
        rw [List.mem_singleton.mp hb]
        intro heq
        exact hmem (heq ▸ hsub a ha)
      obtain ⟨h1, h2, h3⟩ := ih (acc ++ [d]) (contentHash hsh d :: seen) hsub' hpw'
      exact ⟨h1, h2, fun s hs => h3 s (List.mem_cons_of_mem _ hs)⟩

theorem addUnseenCapped_inv (hsh : PyStr → Int) (l : List Document)
    (acc : List Document) (seen : List Int)
    (hsub : ∀ d ∈ acc, contentHash hsh d ∈ seen)
    (hpw : acc.Pairwise (fun a b => contentHash hsh a ≠ contentHash hsh b)) :
    (∀ d ∈ (addUnseenCapped hsh l acc seen).1,
        contentHash hsh d ∈ (addUnseenCapped hsh l acc seen).2)
    ∧ (addUnseenCapped hsh l acc seen).1.Pairwise
        (fun a b => contentHash hsh a ≠ contentHash hsh b) := by
  induction l generalizing acc seen with
  | nil => exact ⟨hsub, hpw⟩
  | cons d ds ih =>
    by_cases hcond : contentHash hsh d ∉ seen ∧ acc.length < 15
    · simp only [addUnseenCapped, if_pos hcond]
      have hsub' : ∀ e ∈ acc ++ [d],
          contentHash hsh e ∈ contentHash hsh d :: seen := by
        intro e he
        rcases List.mem_append.mp he with h | h
        · exact List.mem_cons_of_mem _ (hsub e h)
        · simp [List.mem_singleton.mp h]
      have hpw' : (acc ++ [d]).Pairwise
          (fun a b => contentHash hsh a ≠ contentHash hsh b) := by
        rw [List.pairwise_append]
        refine ⟨hpw, List.pairwise_singleton _ _, ?_⟩
        intro a ha b hb
        rw [List.mem_singleton.mp hb]
        intro heq
        exact hcond.1 (heq ▸ hsub a ha)
      exact ih (acc ++ [d]) (contentHash hsh d :: seen) hsub' hpw'
    · simp only [addUnseenCapped, if_neg hcond]
      exact ih acc seen hsub hpw

theorem addUnseenCapped_length (hsh : PyStr → Int) (l : List Document)
    (acc : List Document) (seen : List Int) (hacc : acc.length ≤ 15) :
    (addUnseenCapped hsh l acc seen).1.length ≤ 15 := by
  induction l generalizing acc seen with
  | nil => simpa [addUnseenCapped] using hacc
  | cons d ds ih =>
    by_cases hcond : contentHash hsh d ∉ seen ∧ acc.length < 15
    · simp only [addUnseenCapped, if_pos hcond]
      exact ih (acc ++ [d]) _
        (by simp only [List.length_append, List.length_singleton]
            have := hcond.2
            omega)
    · simp only [addUnseenCapped, if_neg hcond]
      exact ih acc seen hacc

theorem introLoop_inv (hsh : PyStr → Int) (store : PyStr → Nat → List Document)
    (qs : List PyStr) (acc : List Document) (seen : List Int)
    (hsub : ∀ d ∈ acc, contentHash hsh d ∈ seen)
    (hpw : acc.Pairwise (fun a b => contentHash hsh a ≠ contentHash hsh b)) :
    (∀ d ∈ (introLoop hsh store qs acc seen).1,
        contentHash hsh d ∈ (introLoop hsh store qs acc seen).2)
    ∧ (introLoop hsh store qs acc seen).1.Pairwise
        (fun a b => contentHash hsh a ≠ contentHash hsh b) := by
  induction qs generalizing acc seen with
  | nil => exact ⟨hsub, hpw⟩
  | cons q rest ih =>
    obtain ⟨h1, h2, _⟩ := addUnseen_inv hsh (store q 5) acc seen hsub hpw
    by_cases hstop : 15 ≤ (addUnseen hsh (store q 5) acc seen).1.length
    · simp only [introLoop, if_pos hstop]
      exact ⟨h1, h2⟩
    · simp only [introLoop, if_neg hstop]
      exact ih _ _ h1 h2

theorem overviewDocs_pairwise (hsh : PyStr → Int)
    (store : PyStr → Nat → List Document) :
    (overviewDocs hsh store).Pairwise
      (fun a b => contentHash hsh a ≠ contentHash hsh b) := by
  obtain ⟨h1, h2⟩ := introLoop_inv hsh store intro_queries [] []
    (by simp) List.Pairwise.nil
  by_cases hfew : (introLoop hsh store intro_queries [] []).1.length < 5
  · simp only [overviewDocs, if_pos hfew]
    exact (addUnseenCapped_inv hsh (store "main content".toList 10) _ _ h1 h2).2
  · simp only [overviewDocs, if_neg hfew]
    exact h2

theorem selectOverview_mem (max_tokens : Nat) (l : List Document) (tc : Nat)
    (htc : tc ≤ max_tokens) :
    ∀ p ∈ selectOverview max_tokens l tc,
      p.1 ∈ l ∧ p.2.take 200 = p.1.page_content.take 200 := by
  induction l generalizing tc with
  | nil => intro p hp; simp [selectOverview] at hp
  | cons d ds ih =>
    intro p hp
    by_cases hov : tc + estimated_tokens d.page_content > max_tokens
    · by_cases hrem : (max_tokens - tc) * 4 > 200
      · simp only [selectOverview, if_pos hov, if_pos hrem,
          List.mem_singleton] at hp
        subst hp
        refine ⟨List.mem_cons_self _ _, ?_⟩
        have hlen : 4 * (max_tokens - tc) + 4 ≤ d.page_content.length := by
          have h1 : max_tokens - tc + 1 ≤ estimated_tokens d.page_content := by
            simp only [estimated_tokens] at hov ⊢
            omega
          have h4 : (max_tokens - tc + 1) * 4 ≤ (d.page_content.length / 4) * 4 :=
            Nat.mul_le_mul_right 4 (by simpa [estimated_tokens] using h1)
          have h5 : (d.page_content.length / 4) * 4 ≤ d.page_content.length :=
            Nat.div_mul_le_self _ _
          omega
        have htk : (d.page_content.take ((max_tokens - tc) * 4)).length
            = (max_tokens - tc) * 4 :=
          List.length_take_of_le (by omega)
        show (d.page_content.take ((max_tokens - tc) * 4) ++ ellipsis).take 200
            = d.page_content.take 200
        rw [List.take_append_of_le_length (by omega), List.take_take]
        congr 1
        omega
      · simp [selectOverview, if_pos hov, if_neg hrem] at hp
    · simp only [selectOverview, if_neg hov, List.mem_cons] at hp
      rcases hp with hhd | htail
      · subst hhd
        exact ⟨List.mem_cons_self _ _, rfl⟩
      · obtain ⟨hmem, htake⟩ := ih (tc + estimated_tokens d.page_content)
          (by omega) p htail
        exact ⟨List.mem_cons_of_mem _ hmem, htake⟩

theorem selectOverview_pairwise (hsh : PyStr → Int) (max_tokens : Nat)
    (l : List Document) (tc : Nat) (htc : tc ≤ max_tokens)
    (hpw : l.Pairwise (fun a b => contentHash hsh a ≠ contentHash hsh b)) :
    ((selectOverview max_tokens l tc).map Prod.snd).Pairwise
      (fun a b => hsh (a.take 200) ≠ hsh (b.take 200)) := by
  induction l generalizing tc with
  | nil => simp [selectOverview]
  | cons d ds ih =>
    obtain ⟨hhd, htl⟩ := List.pairwise_cons.mp hpw
    by_cases hov : tc + estimated_tokens d.page_content > max_tokens
    · by_cases hrem : (max_tokens - tc) * 4 > 200
      · simp [selectOverview, if_pos hov, if_pos hrem]
      · simp [selectOverview, if_pos hov, if_neg hrem]
    · simp only [selectOverview, if_neg hov, List.map_cons]
      refine List.Pairwise.cons ?_ (ih (tc + estimated_tokens d.page_content) (by omega) htl)
      intro s hs
      obtain ⟨p, hp, hps⟩ := List.mem_map.mp hs
      obtain ⟨hpmem, hptake⟩ := selectOverview_mem max_tokens ds
        (tc + estimated_tokens d.page_content) (by omega) p hp
      subst hps
      rw [hptake]
      exact hhd p.1 hpmem

/-- C7: the passages bundled by `get_document_overview` are deduplicated by
the hash of their first 200 characters — the collected documents, and the
passage slices actually packed into the bundle (after intro-score ranking
and budgeting), are pairwise distinct under that hash; once a query batch
brings the unique count to 15 the remaining queries are skipped; and when
fewer than 5 documents were found the set is topped up from the generic
`"main content"` query, still deduplicated and capped at 15. -/
theorem C7_overview_dedup (hsh : PyStr → Int)
    (store : PyStr → Nat → List Document) (max_tokens : Nat) :
    ((overviewDocs hsh store).Pairwise
        (fun a b => contentHash hsh a ≠ contentHash hsh b))
    ∧ (((selectOverview max_tokens
          ((overviewDocs hsh store).mergeSort introDescending) 0).map
          Prod.snd).Pairwise (fun a b => hsh (a.take 200) ≠ hsh (b.take 200)))
    ∧ (5 ≤ (introLoop hsh store intro_queries [] []).1.length →
        overviewDocs hsh store = (introLoop hsh store intro_queries [] []).1)
    ∧ ((introLoop hsh store intro_queries [] []).1.length < 5 →
        (overviewDocs hsh store).length ≤ 15)
    ∧ (∀ q qs acc seen, 15 ≤ (addUnseen hsh (store q 5) acc seen).1.length →
        introLoop hsh store (q :: qs) acc seen = addUnseen hsh (store q 5) acc seen) := by
  refine ⟨overviewDocs_pairwise hsh store, ?_, ?_, ?_, ?_⟩
  · apply selectOverview_pairwise hsh max_tokens _ 0 (Nat.zero_le _)
    exact ((overviewDocs_pairwise hsh store).perm
      (List.mergeSort_perm _ _).symm (fun h => h.symm))
  · intro hmany
    simp only [overviewDocs, if_neg (by omega : ¬(introLoop hsh store intro_queries [] []).1.length < 5)]
  · intro hfew
    simp only [overviewDocs, if_pos hfew]
    exact addUnseenCapped_length hsh _ _ _ (by omega)
  · intro q qs acc seen hstop
    simp only [introLoop, if_pos hstop]

/-- Hash model for the C7 witness: the length of the 200-character prefix. -/
def witnessHash : PyStr → Int := fun s => (s.length : Int)

/-- Store model for the C7 witness: every query returns the same two
passages, so deduplication and the top-up path are both exercised. -/
def witnessStore : PyStr → Nat → List Document := fun _ _ =>
  [⟨"Introduction overview of ultrasonic testing basics.".toList,
    some "notes.pdf".toList⟩,
   ⟨"Defects and flaws found by visual inspection.".toList,
    some "notes.pdf".toList⟩]

theorem C7_overview_dedup_witness :
    ((introLoop witnessHash witnessStore intro_queries [] []).1.length < 5)
    ∧ (overviewDocs witnessHash witnessStore).length ≤ 15
    ∧ (overviewDocs witnessHash witnessStore).Pairwise
        (fun a b => contentHash witnessHash a ≠ contentHash witnessHash b) :=
  ⟨by decide,
   (C7_overview_dedup witnessHash witnessStore 4000).2.2.2.1 (by decide),
   (C7_overview_dedup witnessHash witnessStore 4000).1⟩

end StudyChatbot
